import Mathlib

/-!
Verification of the chair views of the `wwwdccn` conference-management
application (`src/wwwdccn/chair/views.py`) against its specification.

The source is a set of Django view functions.  We shallowly embed the data
model (users, profiles, submissions, conferences) and the pure
read-and-transform logic of the views: listing with optional filtering
(`submissions_list`, `users_list`) and CSV export (`get_submissions_csv`,
`get_authors_csv`).  Access to a related object that may be absent (a
user's one-to-one `Profile`, a submission's `created_by`) is embedded with
`Option`; an unguarded access to an absent related object raises in the
ORM, which we embed as `Except.error`.  External framework pieces that the
views call (the ORM's `order_by`, URL reversal, `strftime`) are embedded as
deterministic Lean functions noted in their doc comments.
-/

/-- Result of a `Profile` record's display methods, carried as data.
The profile model (`users/models.py`) is not under `src/`; the fields below
are the fields and method results the chair views read:
`first_name`, `last_name`, `get_full_name()`, `get_full_name_rus()`,
`avatar`, `country`, `get_country_display()`, `city`, `affiliation`,
`degree`, `role`. -/
structure Profile where
  first_name : String
  last_name : String
  get_full_name : String
  get_full_name_rus : String
  avatar : String
  country : String
  get_country_display : String
  city : String
  affiliation : String
  degree : String
  role : String
deriving DecidableEq, Repr

/-- A `User` record: primary key, email, and the optional one-to-one
`Profile`.  In the ORM, accessing `user.profile` when no profile row is
linked raises `RelatedObjectDoesNotExist`; we embed the link as `Option`. -/
structure User where
  pk : Nat
  email : String
  profile : Option Profile
deriving DecidableEq, Repr

/-- Result of `SubmissionType.get_language_display()`, carried as data
(the submission-type model is not under `src/`). -/
structure SType where
  get_language_display : String
deriving DecidableEq, Repr

/-- A `Submission` record with the fields the chair views read.
`authors` is the list of users linked to the submission by `Author`
(authorship) rows, in the order `sub.authors.all()` yields them; one list
entry per authorship row.  `created_by` is the optional owner,
`review_manuscript` the optional manuscript file (a Django `FileField` is
falsy when no file is attached), `stype` the optional submission type. -/
structure Submission where
  pk : Nat
  title : String
  abstract : String
  status : String
  get_status_display : String
  warnings : List String
  authors : List User
  created_by : Option User
  review_manuscript : Option String
  stype : Option SType
deriving DecidableEq, Repr

/-- A `Conference` record: primary key, short name, and its submissions
(`conference.submission_set.all()`, in fetch order). -/
structure Conference where
  pk : Nat
  short_name : String
  submissions : List Submission
deriving DecidableEq, Repr

/-- The user table: `User.objects.all()` in fetch order. -/
structure DB where
  users : List User
deriving DecidableEq, Repr

/-- Modelled from the spec: `chair/forms.py` (the `FilterSubmissionsForm`
and `FilterUsersForm` classes) is not under `src/`.  Per the spec, a filter
form interprets the request's key-value query parameters: an invalid
specification (schema/type mismatch) fails validation, and a valid one
yields zero or more recognized criteria; an empty parameter set yields no
criteria.  `apply` narrows a record set by the conjunction of the
criteria. -/
inductive FilterSpec (α : Type) where
  | invalid : FilterSpec α
  | criteria : List (α → Bool) → FilterSpec α

/-- Modelled from the spec: `form.is_valid()` — false exactly for an
invalid specification. -/
def FilterSpec.is_valid : FilterSpec α → Bool
  | .invalid => false
  | .criteria _ => true

/-- Modelled from the spec: `form.apply(queryset)` — narrow the record set
by the conjunction of the recognized criteria. -/
def FilterSpec.apply (f : FilterSpec α) (xs : List α) : List α :=
  match f with
  | .invalid => xs
  | .criteria ps => xs.filter (fun x => ps.all (fun p => p x))

/-- The filter specification carries no constraint: it is invalid (ignored)
or empty (no criteria). -/
def FilterSpec.isInvalidOrEmpty (f : FilterSpec α) : Prop :=
  f = .invalid ∨ f = .criteria []

/-- A display name-plus-key pair for one author of a submission, as shaped
by `submissions_list`. -/
structure AuthorItem where
  name : String
  user_pk : Nat
deriving DecidableEq, Repr

/-- One display record of `submissions_list`. -/
structure SubListItem where
  object : Submission
  warnings : List String
  title : String
  abstract : String
  authors : List AuthorItem
  authors_display : String
  pk : Nat
  status : String
  status_display : String
deriving DecidableEq, Repr

/-- The author profiles resolved for one submission:
`Profile.objects.filter(user__authorship__submission=sub)` — the profile
rows of users holding an authorship to `sub`.  A user with no profile row
simply contributes no row to this queryset (it queries the profile table),
so no error can arise here. -/
def authorProfiles (sub : Submission) : List (Profile × Nat) :=
  sub.authors.filterMap (fun u => u.profile.map (fun p => (p, u.pk)))

/-- The body of `submissions_list` (`chair/views.py:35-75`): fetch the
conference's submissions, narrow them by the filter form only when it
validates, and shape each submission for display. -/
def submissions_list (conf : Conference) (form : FilterSpec Submission) :
    List SubListItem :=
  let submissions :=
    if form.is_valid then form.apply conf.submissions else conf.submissions
  submissions.map (fun sub =>
    { object := sub
      warnings := sub.warnings
      title := sub.title
      abstract := sub.abstract
      authors := (authorProfiles sub).map (fun pr =>
        { name := pr.1.first_name ++ " " ++ pr.1.last_name
          user_pk := pr.2 })
      authors_display := String.intercalate ", "
        ((authorProfiles sub).map (fun pr =>
          pr.1.first_name ++ " " ++ pr.1.last_name))
      pk := sub.pk
      status := sub.status
      status_display := sub.get_status_display })

/-- One display record of `users_list`. -/
structure UserListItem where
  pk : Nat
  name : String
  name_rus : String
  avatar : String
  country : String
  city : String
  affiliation : String
  degree : String
  role : String
  num_submissions : Nat
  is_participant : Bool
deriving DecidableEq, Repr

/-- Access `user.profile`: raises `RelatedObjectDoesNotExist` in the ORM
when the user has no linked profile row. -/
def userProfile (u : User) : Except String Profile :=
  match u.profile with
  | none => .error "RelatedObjectDoesNotExist: User has no profile."
  | some p => .ok p

/-- The authorship rows of a user scoped to a conference:
`user.authorship.filter(submission__conference=conference)`.  One entry
(the submission's key) per authorship row linking the user to a submission
of the conference. -/
def conferenceAuthorships (conf : Conference) (u : User) : List Nat :=
  conf.submissions.flatMap (fun s =>
    (s.authors.filter (fun a => a.pk == u.pk)).map (fun _ => s.pk))

/-- Evaluate an effectful function left to right down a list, stopping at
the first error — the shape of every per-record loop in the views. -/
def mapExcept (f : α → Except String β) : List α → Except String (List β)
  | [] => .ok []
  | a :: as =>
    match f a with
    | .error e => .error e
    | .ok b =>
      match mapExcept f as with
      | .error e => .error e
      | .ok bs => .ok (b :: bs)

/-- Shape one user for `users_list` (`chair/views.py:94-106`): the
profile-field reads go through `user.profile`, which raises when the user
has no linked profile. -/
def userListItem (conf : Conference) (u : User) : Except String UserListItem :=
  match userProfile u with
  | .error e => .error e
  | .ok profile =>
    .ok { pk := u.pk
          name := profile.get_full_name
          name_rus := profile.get_full_name_rus
          avatar := profile.avatar
          country := profile.country
          city := profile.city
          affiliation := profile.affiliation
          degree := profile.degree
          role := profile.role
          num_submissions := (conferenceAuthorships conf u).length
          is_participant := (conferenceAuthorships conf u).length > 0 }

/-- The body of `users_list` (`chair/views.py:80-113`): fetch every user in
the system, narrow by the filter form only when it validates, and shape
each user for display.  Building the `profiles` dictionary accesses
`user.profile` for every listed user, so a listed user with no profile row
raises. -/
def users_list (db : DB) (conf : Conference) (form : FilterSpec User) :
    Except String (List UserListItem) :=
  let users := if form.is_valid then form.apply db.users else db.users
  mapExcept (userListItem conf) users

/-- The ORM's `queryset.order_by('pk')` applied to submissions: the
records sorted by ascending primary key (a stable sort; `order_by` with a
plain field name sorts ascending). -/
def orderSubmissionsByPk (subs : List Submission) : List Submission :=
  List.insertionSort (fun a b => a.pk ≤ b.pk) subs

/-- The ORM's `queryset.order_by('pk')` applied to users. -/
def orderUsersByPk (us : List User) : List User :=
  List.insertionSort (fun a b => a.pk ≤ b.pk) us

/-- A timestamp at response-generation time, as read by
`datetime.now()`. -/
structure DateTime where
  year : Nat
  month : Nat
  day : Nat
  hour : Nat
  minute : Nat
deriving DecidableEq, Repr

/-- The decimal digit character for `n % 10`. -/
def digitChar (n : Nat) : Char := Char.ofNat (48 + n % 10)

/-- A natural number zero-padded to two decimal digits (its value modulo
100). -/
def pad2 (n : Nat) : String := String.mk [digitChar (n / 10), digitChar n]

/-- A natural number zero-padded to four decimal digits (its value modulo
10000). -/
def pad4 (n : Nat) : String :=
  String.mk [digitChar (n / 1000), digitChar (n / 100), digitChar (n / 10),
             digitChar n]

/-- The Python `datetime.strftime("%Y%m%d_%H%M")` format: zero-padded
year, month, day, an underscore, zero-padded hour and minute. -/
def strftimeYmdHM (t : DateTime) : String :=
  pad4 t.year ++ pad2 t.month ++ pad2 t.day ++ "_" ++ pad2 t.hour ++
    pad2 t.minute

/-- The request data the exports read: the scheme and host that
`request.build_absolute_uri` prepends to a path, and the generation-time
clock reading. -/
structure Request where
  scheme : String
  host : String
  now : DateTime
deriving DecidableEq, Repr

/-- Django's `request.build_absolute_uri(path)`: the absolute URL
`scheme://host` followed by the path. -/
def buildAbsoluteUri (req : Request) (path : String) : String :=
  req.scheme ++ "://" ++ req.host ++ path

/-- Modelled from the spec: the URL route named
`submissions:download-manuscript` (the `submissions` app's `urls.py` is not
under `src/`).  `reverse` with `args=[sub.pk]` yields a path to the
download endpoint containing the submission's identifier. -/
def reverseDownloadManuscript (pk : Nat) : String :=
  "/submissions/" ++ toString pk ++ "/download-manuscript/"

/-- An HTTP response carrying a CSV body: the content type, the
`Content-Disposition` header, and the written rows (each row a list of
cells; `csv.writer` stringifies non-string cells). -/
structure CsvResponse where
  contentType : String
  contentDisposition : String
  rows : List (List String)
deriving DecidableEq, Repr

/-- The corresponding-author fields of one submission row
(`chair/views.py:153-155`): with no owner both fields are the empty
string; with an owner, the owner's profile full name (raises when the
owner has no profile row) and the owner's email. -/
def corrFields : Option User → Except String (String × String)
  | none => .ok ("", "")
  | some owner =>
    match owner.profile with
    | none => .error "RelatedObjectDoesNotExist: User has no profile."
    | some p => .ok (p.get_full_name, owner.email)

/-- The cells of one submission row after the sequence number
(`chair/views.py:148-167`): id, title, the comma-joined author full names,
the comma-joined de-duplicated set of author country labels (Python set
semantics: each distinct label once, iteration order unspecified — embedded
as `List.dedup`), the corresponding-author fields, the submission-type
language label (empty when no type), and the manuscript download link
(empty when no manuscript).  Reading each author's `a.user.profile` raises
when that user has no profile row. -/
def submissionRowData (req : Request) (sub : Submission) :
    Except String (List String) :=
  match mapExcept userProfile sub.authors with
  | .error e => .error e
  | .ok ps =>
    match corrFields sub.created_by with
    | .error e => .error e
    | .ok corr =>
      .ok [toString sub.pk, sub.title,
           String.intercalate ", " (ps.map Profile.get_full_name),
           String.intercalate ", " ((ps.map Profile.get_country_display).dedup),
           corr.1, corr.2,
           (match sub.stype with
            | none => ""
            | some st => st.get_language_display),
           (match sub.review_manuscript with
            | none => ""
            | some _ => buildAbsoluteUri req (reverseDownloadManuscript sub.pk))]

/-- Prefix each row with its sequence number, counting up from `n` — the
`number` counter of the export loops. -/
def numberRows (n : Nat) : List (List String) → List (List String)
  | [] => []
  | d :: ds => (toString n :: d) :: numberRows (n + 1) ds

/-- The header row of the submissions export. -/
def submissionsHeader : List String :=
  ["#", "ID", "TITLE", "AUTHORS", "COUNTRY", "CORR_AUTHOR", "CORR_EMAIL",
   "LANGUAGE", "LINK"]

/-- The body of `get_submissions_csv` (`chair/views.py:132-171`): fetch the
conference's submissions ordered by ascending primary key, and write a
`text/csv` attachment named `submissions-<timestamp>.csv` holding the
header row followed by one numbered row per submission. -/
def get_submissions_csv (req : Request) (conf : Conference) :
    Except String CsvResponse :=
  let submissions := orderSubmissionsByPk conf.submissions
  match mapExcept (submissionRowData req) submissions with
  | .error e => .error e
  | .ok datas =>
    .ok { contentType := "text/csv"
          contentDisposition :=
            "attachment; filename=\"submissions-" ++
              strftimeYmdHM req.now ++ ".csv\""
          rows := submissionsHeader :: numberRows 1 datas }

/-- Modelled from the spec: `conferences/helpers.py` (`is_author`) is not
under `src/`.  Per the spec's glossary and participant definition, a user
is an author for a conference exactly when at least one authorship links
the user to a submission of that conference. -/
def is_author (conf : Conference) (u : User) : Bool :=
  !(conferenceAuthorships conf u).isEmpty

/-- The cells of one author row after the sequence number
(`chair/views.py:193-199`): id, full name, secondary (Russian) full name,
degree, country label, city, affiliation, role, email.  Reading
`user.profile` raises when the user has no profile row. -/
def authorRowData (u : User) : Except String (List String) :=
  match userProfile u with
  | .error e => .error e
  | .ok prof =>
    .ok [toString u.pk, prof.get_full_name, prof.get_full_name_rus,
         prof.degree, prof.get_country_display, prof.city, prof.affiliation,
         prof.role, u.email]

/-- The header row of the authors export. -/
def authorsHeader : List String :=
  ["#", "ID", "FULL_NAME", "FULL_NAME_RUS", "DEGREE", "COUNTRY", "CITY",
   "AFFILIATION", "ROLE", "EMAIL"]

/-- The body of `get_authors_csv` (`chair/views.py:176-203`): fetch every
user ordered by ascending primary key, keep those for whom `is_author`
holds in the conference, and write a `text/csv` attachment named
`authors-<timestamp>.csv` holding the header row followed by one numbered
row per kept user. -/
def get_authors_csv (req : Request) (db : DB) (conf : Conference) :
    Except String CsvResponse :=
  let users := (orderUsersByPk db.users).filter (fun u => is_author conf u)
  match mapExcept authorRowData users with
  | .error e => .error e
  | .ok datas =>
    .ok { contentType := "text/csv"
          contentDisposition :=
            "attachment; filename=\"authors-" ++
              strftimeYmdHM req.now ++ ".csv\""
          rows := authorsHeader :: numberRows 1 datas }

/-! ### Helper lemmas -/

theorem mapExcept_ok_forall₂ {f : α → Except String β} :
    ∀ {l : List α} {ys : List β}, mapExcept f l = .ok ys →
      List.Forall₂ (fun a b => f a = .ok b) l ys := by
  intro l
  induction l with
  | nil =>
    intro ys h
    simp only [mapExcept] at h
    cases h
    exact List.Forall₂.nil
  | cons a as ih =>
    intro ys h
    simp only [mapExcept] at h
    cases hfa : f a with
    | error e => rw [hfa] at h; cases h
    | ok b =>
      rw [hfa] at h
      cases hrec : mapExcept f as with
      | error e => rw [hrec] at h; cases h
      | ok bs =>
        rw [hrec] at h
        cases h
        exact List.Forall₂.cons hfa (ih hrec)

theorem mapExcept_ok_exists {f : α → Except String β} :
    ∀ {l : List α}, (∀ a ∈ l, ∃ b, f a = .ok b) →
      ∃ ys, mapExcept f l = .ok ys ∧
        List.Forall₂ (fun a b => f a = .ok b) l ys := by
  intro l
  induction l with
  | nil => intro _; exact ⟨[], rfl, List.Forall₂.nil⟩
  | cons a as ih =>
    intro h
    obtain ⟨b, hb⟩ := h a (List.mem_cons_self a as)
    obtain ⟨bs, hbs, hall⟩ := ih (fun x hx => h x (List.mem_cons_of_mem a hx))
    refine ⟨b :: bs, ?_, List.Forall₂.cons hb hall⟩
    simp only [mapExcept, hb, hbs]

theorem mapExcept_error_of_mem {f : α → Except String β} :
    ∀ {l : List α} {a : α} {e : String}, a ∈ l → f a = .error e →
      ∃ e', mapExcept f l = .error e' := by
  intro l
  induction l with
  | nil => intro a e h _; cases h
  | cons x xs ih =>
    intro a e hmem hfa
    rcases List.mem_cons.mp hmem with h | h
    · subst h
      exact ⟨e, by simp only [mapExcept, hfa]⟩
    · cases hfx : f x with
      | error e'' => exact ⟨e'', by simp only [mapExcept, hfx]⟩
      | ok b =>
        obtain ⟨e', he'⟩ := ih h hfa
        exact ⟨e', by simp only [mapExcept, hfx, he']⟩

theorem numberRows_length :
    ∀ (n : Nat) (ds : List (List String)), (numberRows n ds).length = ds.length := by
  intro n ds
  induction ds generalizing n with
  | nil => rfl
  | cons d ds ih => simp only [numberRows, List.length_cons, ih]

theorem numberRows_map_head :
    ∀ (n : Nat) (ds : List (List String)),
      (numberRows n ds).map (fun r => r.headD "") =
        (List.range' n ds.length).map toString := by
  intro n ds
  induction ds generalizing n with
  | nil => rfl
  | cons d ds ih =>
    simp only [numberRows, List.length_cons, List.range'_succ, List.map_cons,
      List.headD_cons, ih]

theorem numberRows_forall₂ {R : α → List String → Prop} :
    ∀ {l : List α} {ds : List (List String)} (n : Nat),
      List.Forall₂ R l ds →
      List.Forall₂ (fun a r => ∃ (k : Nat) (d : List String),
        r = toString k :: d ∧ R a d) l (numberRows n ds) := by
  intro l ds n h
  induction h generalizing n with
  | nil => exact List.Forall₂.nil
  | cons hd _ ih =>
    exact List.Forall₂.cons ⟨_, _, rfl, hd⟩ (ih (n + 1))

instance : IsTotal Submission (fun a b => a.pk ≤ b.pk) :=
  ⟨fun a b => Nat.le_total a.pk b.pk⟩

instance : IsTrans Submission (fun a b => a.pk ≤ b.pk) :=
  ⟨fun _ _ _ h1 h2 => Nat.le_trans h1 h2⟩

instance : IsTotal User (fun a b => a.pk ≤ b.pk) :=
  ⟨fun a b => Nat.le_total a.pk b.pk⟩

instance : IsTrans User (fun a b => a.pk ≤ b.pk) :=
  ⟨fun _ _ _ h1 h2 => Nat.le_trans h1 h2⟩

theorem orderSubmissionsByPk_perm (subs : List Submission) :
    (orderSubmissionsByPk subs).Perm subs :=
  List.perm_insertionSort _ subs

theorem orderSubmissionsByPk_pairwise (subs : List Submission) :
    List.Pairwise (fun a b => a.pk ≤ b.pk) (orderSubmissionsByPk subs) :=
  List.sorted_insertionSort _ subs

theorem orderUsersByPk_perm (us : List User) :
    (orderUsersByPk us).Perm us :=
  List.perm_insertionSort _ us

theorem orderUsersByPk_pairwise (us : List User) :
    List.Pairwise (fun a b => a.pk ≤ b.pk) (orderUsersByPk us) :=
  List.sorted_insertionSort _ us

theorem userProfile_ok_iff {u : User} {p : Profile} :
    userProfile u = .ok p ↔ u.profile = some p := by
  cases hp : u.profile <;> simp [userProfile, hp]

theorem userProfile_ok_of_isSome {u : User} (h : u.profile.isSome = true) :
    ∃ p, userProfile u = .ok p := by
  cases hp : u.profile with
  | none => rw [hp] at h; cases h
  | some p => exact ⟨p, userProfile_ok_iff.mpr hp⟩

theorem forall₂_map_eq {R : α → β → Prop} {l : List α} {ys : List β}
    (g : β → γ) (gh : α → γ) (hf : List.Forall₂ R l ys)
    (h : ∀ a b, R a b → g b = gh a) : ys.map g = l.map gh := by
  induction hf with
  | nil => rfl
  | cons hab _ ih => simp only [List.map_cons, ih, h _ _ hab]

theorem forall₂_userProfile_filterMap {us : List User} {ps : List Profile}
    (hf : List.Forall₂ (fun u p => userProfile u = .ok p) us ps) :
    ps = us.filterMap User.profile := by
  induction hf with
  | nil => rfl
  | cons hab _ ih =>
    rw [List.filterMap_cons, userProfile_ok_iff.mp hab, ← ih]

/-- One submission's row computation succeeds: every author's user has a
profile row and, when present, the owner has a profile row. -/
def submissionOk (sub : Submission) : Bool :=
  sub.authors.all (fun u => u.profile.isSome) &&
  (match sub.created_by with
   | none => true
   | some o => o.profile.isSome)

/-- Every submission row of the conference's export succeeds. -/
def submissionsCsvOk (conf : Conference) : Bool :=
  conf.submissions.all submissionOk

theorem corrFields_ok {sub : Submission} (h : submissionOk sub = true) :
    ∃ corr, corrFields sub.created_by = .ok corr := by
  cases hc : sub.created_by with
  | none => exact ⟨("", ""), rfl⟩
  | some o =>
    have h2 := (Bool.and_eq_true _ _).mp h |>.2
    simp only [hc] at h2
    cases hp : o.profile with
    | none => rw [hp] at h2; cases h2
    | some p =>
      exact ⟨(p.get_full_name, o.email), by simp [corrFields, hp]⟩

theorem submissionRowData_ok_shape (req : Request) (sub : Submission)
    (h : submissionOk sub = true) :
    ∃ ps corr,
      List.Forall₂ (fun u p => userProfile u = .ok p) sub.authors ps ∧
      corrFields sub.created_by = .ok corr ∧
      submissionRowData req sub = .ok
        [toString sub.pk, sub.title,
         String.intercalate ", " (ps.map Profile.get_full_name),
         String.intercalate ", " ((ps.map Profile.get_country_display).dedup),
         corr.1, corr.2,
         (match sub.stype with
          | none => ""
          | some st => st.get_language_display),
         (match sub.review_manuscript with
          | none => ""
          | some _ =>
            buildAbsoluteUri req (reverseDownloadManuscript sub.pk))] := by
  have h1 := (Bool.and_eq_true _ _).mp h |>.1
  have hall : ∀ u ∈ sub.authors, ∃ p, userProfile u = .ok p := by
    intro u hu
    exact userProfile_ok_of_isSome (List.all_eq_true.mp h1 u hu)
  obtain ⟨ps, hps, hfa⟩ := mapExcept_ok_exists hall
  obtain ⟨corr, hcorr⟩ := corrFields_ok h
  exact ⟨ps, corr, hfa, hcorr, by simp only [submissionRowData, hps, hcorr]⟩

theorem get_submissions_csv_ok (req : Request) (conf : Conference)
    (h : submissionsCsvOk conf = true) :
    ∃ datas resp,
      get_submissions_csv req conf = .ok resp ∧
      List.Forall₂ (fun sub d => submissionRowData req sub = .ok d)
        (orderSubmissionsByPk conf.submissions) datas ∧
      resp.rows = submissionsHeader :: numberRows 1 datas ∧
      resp.contentType = "text/csv" ∧
      resp.contentDisposition =
        "attachment; filename=\"submissions-" ++ strftimeYmdHM req.now ++
          ".csv\"" := by
  have hall : ∀ sub ∈ orderSubmissionsByPk conf.submissions,
      ∃ d, submissionRowData req sub = .ok d := by
    intro sub hsub
    have hmem : sub ∈ conf.submissions :=
      (orderSubmissionsByPk_perm conf.submissions).mem_iff.mp hsub
    have hok : submissionOk sub = true := List.all_eq_true.mp h sub hmem
    obtain ⟨ps, corr, _, _, hd⟩ := submissionRowData_ok_shape req sub hok
    exact ⟨_, hd⟩
  obtain ⟨datas, hdatas, hfa⟩ := mapExcept_ok_exists hall
  refine ⟨datas,
    ⟨"text/csv",
     "attachment; filename=\"submissions-" ++ strftimeYmdHM req.now ++
       ".csv\"",
     submissionsHeader :: numberRows 1 datas⟩, ?_, hfa, rfl, rfl, rfl⟩
  simp only [get_submissions_csv, hdatas]

theorem get_authors_csv_ok (req : Request) (db : DB) (conf : Conference)
    (h : ∀ u ∈ db.users, is_author conf u = true → u.profile.isSome = true) :
    ∃ datas resp,
      get_authors_csv req db conf = .ok resp ∧
      List.Forall₂ (fun u d => authorRowData u = .ok d)
        ((orderUsersByPk db.users).filter (fun u => is_author conf u)) datas ∧
      resp.rows = authorsHeader :: numberRows 1 datas ∧
      resp.contentType = "text/csv" ∧
      resp.contentDisposition =
        "attachment; filename=\"authors-" ++ strftimeYmdHM req.now ++
          ".csv\"" := by
  have hall : ∀ u ∈ (orderUsersByPk db.users).filter
      (fun u => is_author conf u), ∃ d, authorRowData u = .ok d := by
    intro u hu
    obtain ⟨hmem, hauth⟩ := List.mem_filter.mp hu
    have hmem' : u ∈ db.users := (orderUsersByPk_perm db.users).mem_iff.mp hmem
    obtain ⟨p, hp⟩ := userProfile_ok_of_isSome (h u hmem' hauth)
    exact ⟨[toString u.pk, p.get_full_name, p.get_full_name_rus, p.degree,
            p.get_country_display, p.city, p.affiliation, p.role, u.email],
           by simp only [authorRowData, hp]⟩
  obtain ⟨datas, hdatas, hfa⟩ := mapExcept_ok_exists hall
  refine ⟨datas,
    ⟨"text/csv",
     "attachment; filename=\"authors-" ++ strftimeYmdHM req.now ++ ".csv\"",
     authorsHeader :: numberRows 1 datas⟩, ?_, hfa, rfl, rfl, rfl⟩
  simp only [get_authors_csv, hdatas]

theorem digitChar_isDigit (n : Nat) : (digitChar n).isDigit = true := by
  have haux : ∀ m, m < 10 → (Char.ofNat (48 + m)).isDigit = true := by decide
  exact haux _ (Nat.mod_lt _ (by decide))

/-- A string of exactly `k` decimal digit characters. -/
def digitBlock (s : String) (k : Nat) : Prop :=
  s.length = k ∧ ∀ c ∈ s.toList, c.isDigit = true

theorem pad2_digitBlock (n : Nat) : digitBlock (pad2 n) 2 := by
  refine ⟨rfl, ?_⟩
  intro c hc
  simp only [pad2, String.toList, String.mk, List.mem_cons,
    List.not_mem_nil, or_false] at hc
  rcases hc with h | h <;> rw [h] <;> exact digitChar_isDigit _

theorem pad4_digitBlock (n : Nat) : digitBlock (pad4 n) 4 := by
  refine ⟨rfl, ?_⟩
  intro c hc
  simp only [pad4, String.toList, String.mk, List.mem_cons,
    List.not_mem_nil, or_false] at hc
  rcases hc with h | h | h | h <;> rw [h] <;> exact digitChar_isDigit _

/-- The `<YYYYMMDD_HHMM>` timestamp form: four digits, then two, two, an
underscore, two and two. -/
def timestampShape (s : String) : Prop :=
  ∃ y mo d h mi : String,
    s = y ++ mo ++ d ++ "_" ++ h ++ mi ∧
    digitBlock y 4 ∧ digitBlock mo 2 ∧ digitBlock d 2 ∧
    digitBlock h 2 ∧ digitBlock mi 2

theorem strftimeYmdHM_shape (t : DateTime) :
    timestampShape (strftimeYmdHM t) :=
  ⟨pad4 t.year, pad2 t.month, pad2 t.day, pad2 t.hour, pad2 t.minute,
   by simp only [strftimeYmdHM, String.append_assoc],
   pad4_digitBlock _, pad2_digitBlock _, pad2_digitBlock _,
   pad2_digitBlock _, pad2_digitBlock _⟩

/-- The number of authorship rows linking a user to a submission of the
conference — the claim-side count `is_participant` and `num_submissions`
are measured against. -/
def conferenceAuthorshipCount (conf : Conference) (u : User) : Nat :=
  (conf.submissions.map
    (fun s => (s.authors.filter (fun a => a.pk == u.pk)).length)).sum

theorem conferenceAuthorships_length (conf : Conference) (u : User) :
    (conferenceAuthorships conf u).length = conferenceAuthorshipCount conf u := by
  simp only [conferenceAuthorships, conferenceAuthorshipCount,
    List.length_flatMap, Function.comp_def, List.length_map]

theorem FilterSpec.apply_subset (f : FilterSpec α) (xs : List α) :
    ∀ x ∈ f.apply xs, x ∈ xs := by
  intro x hx
  cases f with
  | invalid => exact hx
  | criteria ps => exact (List.mem_filter.mp hx).1

theorem userListItem_ok_inv {conf : Conference} {u : User} {r : UserListItem}
    (h : userListItem conf u = .ok r) :
    ∃ p, u.profile = some p ∧
      r = { pk := u.pk
            name := p.get_full_name
            name_rus := p.get_full_name_rus
            avatar := p.avatar
            country := p.country
            city := p.city
            affiliation := p.affiliation
            degree := p.degree
            role := p.role
            num_submissions := (conferenceAuthorships conf u).length
            is_participant := (conferenceAuthorships conf u).length > 0 } := by
  cases hp : u.profile with
  | none => simp [userListItem, userProfile, hp] at h
  | some p =>
    refine ⟨p, rfl, ?_⟩
    simp only [userListItem, userProfile, hp] at h
    exact (Except.ok.inj h).symm

theorem users_list_ok (db : DB) (conf : Conference) (form : FilterSpec User)
    (h : ∀ u ∈ db.users, u.profile.isSome = true) :
    ∃ recs, users_list db conf form = .ok recs ∧
      List.Forall₂ (fun u r => userListItem conf u = .ok r)
        (if form.is_valid then form.apply db.users else db.users) recs := by
  have hall : ∀ u ∈ (if form.is_valid then form.apply db.users else db.users),
      ∃ r, userListItem conf u = .ok r := by
    intro u hu
    have hmem : u ∈ db.users := by
      cases hv : form.is_valid with
      | false => rw [hv] at hu; simpa using hu
      | true =>
        rw [hv] at hu
        exact form.apply_subset db.users u (by simpa using hu)
    obtain ⟨p, hp⟩ := userProfile_ok_of_isSome (h u hmem)
    exact ⟨{ pk := u.pk
             name := p.get_full_name
             name_rus := p.get_full_name_rus
             avatar := p.avatar
             country := p.country
             city := p.city
             affiliation := p.affiliation
             degree := p.degree
             role := p.role
             num_submissions := (conferenceAuthorships conf u).length
             is_participant := (conferenceAuthorships conf u).length > 0 },
           by simp only [userListItem, hp]⟩
  obtain ⟨recs, hrecs, hfa⟩ := mapExcept_ok_exists hall
  exact ⟨recs, hrecs, hfa⟩

theorem submissionRowData_ok_inv {req : Request} {sub : Submission}
    {d : List String} (h : submissionRowData req sub = .ok d) :
    ∃ ps corr,
      List.Forall₂ (fun u p => userProfile u = .ok p) sub.authors ps ∧
      corrFields sub.created_by = .ok corr ∧
      d = [toString sub.pk, sub.title,
           String.intercalate ", " (ps.map Profile.get_full_name),
           String.intercalate ", " ((ps.map Profile.get_country_display).dedup),
           corr.1, corr.2,
           (match sub.stype with
            | none => ""
            | some st => st.get_language_display),
           (match sub.review_manuscript with
            | none => ""
            | some _ =>
              buildAbsoluteUri req (reverseDownloadManuscript sub.pk))] := by
  unfold submissionRowData at h
  cases hm : mapExcept userProfile sub.authors with
  | error e => rw [hm] at h; cases h
  | ok ps =>
    rw [hm] at h
    cases hc : corrFields sub.created_by with
    | error e => rw [hc] at h; cases h
    | ok corr =>
      rw [hc] at h
      exact ⟨ps, corr, mapExcept_ok_forall₂ hm, hc ▸ rfl, (Except.ok.inj h).symm⟩

theorem authorRowData_ok_inv {u : User} {d : List String}
    (h : authorRowData u = .ok d) :
    ∃ p, u.profile = some p ∧
      d = [toString u.pk, p.get_full_name, p.get_full_name_rus, p.degree,
           p.get_country_display, p.city, p.affiliation, p.role, u.email] := by
  unfold authorRowData userProfile at h
  cases hp : u.profile with
  | none => rw [hp] at h; cases h
  | some p =>
    rw [hp] at h
    exact ⟨p, rfl, (Except.ok.inj h).symm⟩

/-! ### Concrete records for the witnesses -/

def profileA : Profile :=
  { first_name := "Alice", last_name := "Ames", get_full_name := "Alice Ames"
    get_full_name_rus := "Alisa Ames", avatar := "a.png", country := "DE"
    get_country_display := "Germany", city := "Berlin"
    affiliation := "TU Berlin", degree := "PhD", role := "Researcher" }

def profileB : Profile :=
  { first_name := "Bob", last_name := "Beck", get_full_name := "Bob Beck"
    get_full_name_rus := "Boris Beck", avatar := "b.png", country := "FR"
    get_country_display := "France", city := "Paris"
    affiliation := "U Paris", degree := "MSc", role := "Student" }

def profileC : Profile :=
  { first_name := "Carol", last_name := "Cole", get_full_name := "Carol Cole"
    get_full_name_rus := "Karolina Cole", avatar := "c.png", country := "DE"
    get_country_display := "Germany", city := "Bonn"
    affiliation := "U Bonn", degree := "BSc", role := "Student" }

def userA : User := { pk := 1, email := "alice@example.org", profile := some profileA }

def userB : User := { pk := 2, email := "bob@example.org", profile := some profileB }

def userC : User := { pk := 6, email := "carol@example.org", profile := some profileC }

def userNoProfile : User := { pk := 4, email := "dan@example.org", profile := none }

def sub5 : Submission :=
  { pk := 5, title := "Paper Five", abstract := "On five.", status := "SUBMIT"
    get_status_display := "Submitted", warnings := [], authors := [userA]
    created_by := some userA, review_manuscript := some "five.pdf"
    stype := some { get_language_display := "English" } }

def sub3 : Submission :=
  { pk := 3, title := "Paper Three", abstract := "On three.", status := "REVIEW"
    get_status_display := "Under Review", warnings := [], authors := [userB, userA]
    created_by := none, review_manuscript := none, stype := none }

/-- The spec's example: conference `id=1` holding submissions with ids 5
and 3, fetched in that (non-sorted) order. -/
def conf1 : Conference := { pk := 1, short_name := "CONF", submissions := [sub5, sub3] }

def db1 : DB := { users := [userA, userB, userC] }

/-- A submission whose two authors share the same country label. -/
def sub9 : Submission :=
  { pk := 9, title := "Paper Nine", abstract := "On nine.", status := "SUBMIT"
    get_status_display := "Submitted", warnings := [], authors := [userA, userC]
    created_by := some userA, review_manuscript := none, stype := none }

def confDup : Conference := { pk := 3, short_name := "DUP", submissions := [sub9] }

/-- A submission authored by the profile-less user. -/
def subNP : Submission :=
  { pk := 7, title := "Paper Seven", abstract := "On seven.", status := "SUBMIT"
    get_status_display := "Submitted", warnings := [], authors := [userNoProfile]
    created_by := none, review_manuscript := none, stype := none }

def confNP : Conference := { pk := 2, short_name := "NP", submissions := [subNP] }

def dbNP : DB := { users := [userNoProfile] }

def reqSample : Request :=
  { scheme := "https", host := "conf.example.org"
    now := { year := 2026, month := 10, day := 12, hour := 9, minute := 5 } }

/-! ### Claims -/

/-- C1: for every conference whose N submissions all admit a row (every
author has a profile row and any present owner has one), the submissions
export emits exactly N+1 rows — the header followed by one row per
submission — with the sequence-number column running 1..N and the rows
following a permutation of the submission set that ascends in primary
key (so sorted by identifier, not by fetch order). -/
theorem claim_C1_submissions_csv_rows (req : Request) (conf : Conference)
    (h : submissionsCsvOk conf = true) :
    ∃ resp, get_submissions_csv req conf = .ok resp ∧
      resp.rows.length = conf.submissions.length + 1 ∧
      resp.rows.headD [] = submissionsHeader ∧
      (resp.rows.tail).map (fun r => r.headD "") =
        (List.range' 1 conf.submissions.length).map toString ∧
      ∃ sorted, sorted.Perm conf.submissions ∧
        List.Pairwise (fun a b => a.pk ≤ b.pk) sorted ∧
        List.Forall₂ (fun sub row => row.getD 1 "" = toString sub.pk)
          sorted resp.rows.tail := by
  obtain ⟨datas, resp, hok, hfa, hrows, _, _⟩ := get_submissions_csv_ok req conf h
  have hlen : datas.length = conf.submissions.length := by
    rw [← hfa.length_eq]
    exact (orderSubmissionsByPk_perm conf.submissions).length_eq
  refine ⟨resp, hok, ?_, ?_, ?_, orderSubmissionsByPk conf.submissions,
    orderSubmissionsByPk_perm _, orderSubmissionsByPk_pairwise _, ?_⟩
  · rw [hrows]
    simp [numberRows_length, hlen]
  · rw [hrows]
    rfl
  · rw [hrows]
    simp only [List.tail_cons, numberRows_map_head, hlen]
  · rw [hrows]
    simp only [List.tail_cons]
    refine (numberRows_forall₂ 1 hfa).imp ?_
    intro sub row hx
    obtain ⟨k, d, hrow, hd⟩ := hx
    obtain ⟨ps, corr, _, _, hdval⟩ := submissionRowData_ok_inv hd
    rw [hrow, hdval]
    simp [List.getD]

/-- C1 witness: the spec's own example — conference id 1 with submissions
ids 5 and 3 fetched in that order exports three rows whose data rows are
numbered 1, 2 and carry ids 3, 5. -/
theorem claim_C1_witness :
    submissionsCsvOk conf1 = true ∧
    (∃ resp, get_submissions_csv reqSample conf1 = .ok resp ∧
      resp.rows.length = conf1.submissions.length + 1 ∧
      resp.rows.headD [] = submissionsHeader ∧
      (resp.rows.tail).map (fun r => r.headD "") =
        (List.range' 1 conf1.submissions.length).map toString ∧
      ∃ sorted, sorted.Perm conf1.submissions ∧
        List.Pairwise (fun a b => a.pk ≤ b.pk) sorted ∧
        List.Forall₂ (fun sub row => row.getD 1 "" = toString sub.pk)
          sorted resp.rows.tail) :=
  ⟨by decide, claim_C1_submissions_csv_rows reqSample conf1 (by decide)⟩

theorem filterSpec_noop {f : FilterSpec α} (hf : f.isInvalidOrEmpty)
    (xs : List α) : (if f.is_valid then f.apply xs else xs) = xs := by
  rcases hf with h | h <;> subst h <;>
    simp [FilterSpec.is_valid, FilterSpec.apply]

/-- C2: with an invalid or empty filter specification both listings work
on the full unfiltered record set — each result coincides with the
no-filter result, `submissions_list` lists every submission, and
`users_list` succeeds with one record per user whenever the no-filter
invocation can succeed at all (every user has a profile row) — so the
ignored filter raises no error. -/
theorem claim_C2_invalid_filter_ignored (db : DB) (conf : Conference)
    (fs : FilterSpec Submission) (fu : FilterSpec User)
    (hs : fs.isInvalidOrEmpty) (hu : fu.isInvalidOrEmpty) :
    submissions_list conf fs = submissions_list conf (.criteria []) ∧
    (submissions_list conf fs).length = conf.submissions.length ∧
    users_list db conf fu = users_list db conf (.criteria []) ∧
    ((∀ u ∈ db.users, u.profile.isSome = true) →
      ∃ recs, users_list db conf fu = .ok recs ∧
        recs.length = db.users.length) := by
  have hempty : (FilterSpec.criteria (α := Submission) []).isInvalidOrEmpty :=
    Or.inr rfl
  have hemptyU : (FilterSpec.criteria (α := User) []).isInvalidOrEmpty :=
    Or.inr rfl
  refine ⟨?_, ?_, ?_, ?_⟩
  · simp only [submissions_list, filterSpec_noop hs, filterSpec_noop hempty]
  · simp only [submissions_list, filterSpec_noop hs, List.length_map]
  · simp only [users_list, filterSpec_noop hu, filterSpec_noop hemptyU]
  · intro h
    obtain ⟨recs, hrecs, hfa⟩ := users_list_ok db conf fu h
    rw [filterSpec_noop hu] at hfa
    exact ⟨recs, hrecs, hfa.length_eq.symm⟩

/-- C2 witness: on the sample conference and user table, an invalid
submissions filter and an empty users filter are both ignored. -/
theorem claim_C2_witness :
    (FilterSpec.invalid (α := Submission)).isInvalidOrEmpty ∧
    (FilterSpec.criteria (α := User) []).isInvalidOrEmpty ∧
    (submissions_list conf1 .invalid =
      submissions_list conf1 (.criteria []) ∧
     (submissions_list conf1 .invalid).length = conf1.submissions.length ∧
     users_list db1 conf1 (.criteria []) =
       users_list db1 conf1 (.criteria []) ∧
     ((∀ u ∈ db1.users, u.profile.isSome = true) →
       ∃ recs, users_list db1 conf1 (.criteria []) = .ok recs ∧
         recs.length = db1.users.length)) :=
  ⟨Or.inl rfl, Or.inr rfl,
   claim_C2_invalid_filter_ignored db1 conf1 .invalid (.criteria [])
     (Or.inl rfl) (Or.inr rfl)⟩

/-- C3: for every user record shaped by `users_list`, `is_participant`
holds exactly when the user has at least one authorship row scoped to the
conference, and `num_submissions` is exactly the count of such rows. -/
theorem claim_C3_users_list_participation (db : DB) (conf : Conference)
    (form : FilterSpec User)
    (h : ∀ u ∈ db.users, u.profile.isSome = true) :
    ∃ recs, users_list db conf form = .ok recs ∧
      List.Forall₂ (fun u rec =>
        (rec.is_participant = true ↔ 0 < conferenceAuthorshipCount conf u) ∧
        rec.num_submissions = conferenceAuthorshipCount conf u)
        (if form.is_valid then form.apply db.users else db.users) recs := by
  obtain ⟨recs, hrecs, hfa⟩ := users_list_ok db conf form h
  refine ⟨recs, hrecs, hfa.imp ?_⟩
  intro u r hr
  obtain ⟨p, hp, hrval⟩ := userListItem_ok_inv hr
  subst hrval
  constructor
  · simp [conferenceAuthorships_length]
  · simp [conferenceAuthorships_length]

/-- C3 witness: on the sample user table, user 1 authors two submissions
of conference 1, user 2 one, user 6 none. -/
theorem claim_C3_witness :
    (∀ u ∈ db1.users, u.profile.isSome = true) ∧
    (∃ recs, users_list db1 conf1 .invalid = .ok recs ∧
      List.Forall₂ (fun u rec =>
        (rec.is_participant = true ↔ 0 < conferenceAuthorshipCount conf1 u) ∧
        rec.num_submissions = conferenceAuthorshipCount conf1 u)
        (if (FilterSpec.invalid (α := User)).is_valid
         then (FilterSpec.invalid (α := User)).apply db1.users
         else db1.users) recs) :=
  ⟨by decide, claim_C3_users_list_participation db1 conf1 .invalid (by decide)⟩

/-- C10: with an absent (empty) or invalid filter specification,
`users_list` enumerates every user of the entire system — the emitted
primary keys are exactly those of the whole user table, regardless of any
tie to the conference; in particular a user with zero authorship rows in
the conference is still listed. -/
theorem claim_C10_users_list_whole_system (db : DB) (conf : Conference)
    (form : FilterSpec User) (hform : form.isInvalidOrEmpty)
    (h : ∀ u ∈ db.users, u.profile.isSome = true) :
    ∃ recs, users_list db conf form = .ok recs ∧
      recs.map UserListItem.pk = db.users.map User.pk ∧
      ∀ u ∈ db.users, conferenceAuthorshipCount conf u = 0 →
        u.pk ∈ recs.map UserListItem.pk := by
  obtain ⟨recs, hrecs, hfa⟩ := users_list_ok db conf form h
  rw [filterSpec_noop hform] at hfa
  have hmap : recs.map UserListItem.pk = db.users.map User.pk := by
    refine forall₂_map_eq _ _ hfa ?_
    intro u r hr
    obtain ⟨p, hp, hrval⟩ := userListItem_ok_inv hr
    subst hrval
    rfl
  refine ⟨recs, hrecs, hmap, ?_⟩
  intro u hu _
  rw [hmap]
  exact List.mem_map_of_mem _ hu

/-- C10 witness: user 6 has no authorship, profile link or any other tie
to conference 1 yet is listed by the unfiltered `users_list`. -/
theorem claim_C10_witness :
    (FilterSpec.criteria (α := User) []).isInvalidOrEmpty ∧
    (∀ u ∈ db1.users, u.profile.isSome = true) ∧
    userC ∈ db1.users ∧ conferenceAuthorshipCount conf1 userC = 0 ∧
    (∃ recs, users_list db1 conf1 (.criteria []) = .ok recs ∧
      recs.map UserListItem.pk = db1.users.map User.pk ∧
      ∀ u ∈ db1.users, conferenceAuthorshipCount conf1 u = 0 →
        u.pk ∈ recs.map UserListItem.pk) :=
  ⟨Or.inr rfl, by decide, by decide, by decide,
   claim_C10_users_list_whole_system db1 conf1 (.criteria [])
     (Or.inr rfl) (by decide)⟩

/-- C4: in every submission row of the export, the LINK column (index 8)
is exactly the empty string when no manuscript is attached, and otherwise
the absolute URL `scheme://host/...` of the download endpoint with the
submission's identifier inside the path. -/
theorem claim_C4_link_column (req : Request) (conf : Conference)
    (h : submissionsCsvOk conf = true) :
    ∃ resp, get_submissions_csv req conf = .ok resp ∧
      ∃ sorted, sorted.Perm conf.submissions ∧
        List.Forall₂ (fun sub row =>
          (sub.review_manuscript = none → row.getD 8 "" = "") ∧
          (sub.review_manuscript ≠ none →
            row.getD 8 "" =
              buildAbsoluteUri req (reverseDownloadManuscript sub.pk) ∧
            ∃ pre post, row.getD 8 "" = pre ++ toString sub.pk ++ post))
          sorted resp.rows.tail := by
  obtain ⟨datas, resp, hok, hfa, hrows, _, _⟩ := get_submissions_csv_ok req conf h
  refine ⟨resp, hok, orderSubmissionsByPk conf.submissions,
    orderSubmissionsByPk_perm _, ?_⟩
  rw [hrows]
  simp only [List.tail_cons]
  refine (numberRows_forall₂ 1 hfa).imp ?_
  intro sub row hx
  obtain ⟨k, d, hrow, hd⟩ := hx
  obtain ⟨ps, corr, _, _, hdval⟩ := submissionRowData_ok_inv hd
  subst hrow
  subst hdval
  cases hm : sub.review_manuscript with
  | none =>
    exact ⟨fun _ => by simp [List.getD], fun hne => absurd rfl hne⟩
  | some m =>
    constructor
    · intro hno
      cases hno
    · intro _
      constructor
      · simp [List.getD]
      · refine ⟨req.scheme ++ "://" ++ req.host ++ "/submissions/",
          "/download-manuscript/", ?_⟩
        simp [List.getD, buildAbsoluteUri, reverseDownloadManuscript,
          String.append_assoc]

/-- C4 witness: submission 5 carries a manuscript and links to its
download URL; submission 3 carries none and links the empty string. -/
theorem claim_C4_witness :
    submissionsCsvOk conf1 = true ∧
    (∃ resp, get_submissions_csv reqSample conf1 = .ok resp ∧
      ∃ sorted, sorted.Perm conf1.submissions ∧
        List.Forall₂ (fun sub row =>
          (sub.review_manuscript = none → row.getD 8 "" = "") ∧
          (sub.review_manuscript ≠ none →
            row.getD 8 "" =
              buildAbsoluteUri reqSample (reverseDownloadManuscript sub.pk) ∧
            ∃ pre post, row.getD 8 "" = pre ++ toString sub.pk ++ post))
          sorted resp.rows.tail) :=
  ⟨by decide, claim_C4_link_column reqSample conf1 (by decide)⟩

/-- C5: a submission with no creator never makes the export raise — its
row computation needs nothing of an owner (`corrFields none` succeeds
outright), the whole export succeeds under conditions that say nothing
about ownerless submissions, and such a submission's row carries the
empty string in both the CORR_AUTHOR (index 5) and CORR_EMAIL (index 6)
columns. -/
theorem claim_C5_absent_owner (req : Request) (conf : Conference)
    (h : submissionsCsvOk conf = true) :
    corrFields none = .ok ("", "") ∧
    ∃ resp, get_submissions_csv req conf = .ok resp ∧
      ∃ sorted, sorted.Perm conf.submissions ∧
        List.Forall₂ (fun sub row => sub.created_by = none →
          row.getD 5 "" = "" ∧ row.getD 6 "" = "")
          sorted resp.rows.tail := by
  obtain ⟨datas, resp, hok, hfa, hrows, _, _⟩ := get_submissions_csv_ok req conf h
  refine ⟨rfl, resp, hok, orderSubmissionsByPk conf.submissions,
    orderSubmissionsByPk_perm _, ?_⟩
  rw [hrows]
  simp only [List.tail_cons]
  refine (numberRows_forall₂ 1 hfa).imp ?_
  intro sub row hx
  obtain ⟨k, d, hrow, hd⟩ := hx
  obtain ⟨ps, corr, _, hcorr, hdval⟩ := submissionRowData_ok_inv hd
  subst hrow
  subst hdval
  intro hnone
  rw [hnone] at hcorr
  have : corr = ("", "") := Except.ok.inj hcorr.symm
  subst this
  exact ⟨by simp [List.getD], by simp [List.getD]⟩

/-- C5 witness: submission 3 has no creator; the export succeeds and its
row holds empty corresponding-author cells. -/
theorem claim_C5_witness :
    submissionsCsvOk conf1 = true ∧ sub3.created_by = none ∧
    (corrFields none = .ok ("", "") ∧
     ∃ resp, get_submissions_csv reqSample conf1 = .ok resp ∧
       ∃ sorted, sorted.Perm conf1.submissions ∧
         List.Forall₂ (fun sub row => sub.created_by = none →
           row.getD 5 "" = "" ∧ row.getD 6 "" = "")
           sorted resp.rows.tail) :=
  ⟨by decide, rfl, claim_C5_absent_owner reqSample conf1 (by decide)⟩

/-- C8: in every submission row of the export, the COUNTRY cell (index 4)
is the comma-separated join of a duplicate-free list holding exactly the
distinct country labels of the submission's authors (set semantics; the
order within the cell is whatever the set iteration yields). -/
theorem claim_C8_country_dedup (req : Request) (conf : Conference)
    (h : submissionsCsvOk conf = true) :
    ∃ resp, get_submissions_csv req conf = .ok resp ∧
      ∃ sorted, sorted.Perm conf.submissions ∧
        List.Forall₂ (fun sub row =>
          ∃ ds : List String,
            row.getD 4 "" = String.intercalate ", " ds ∧
            ds.Nodup ∧
            ∀ l, l ∈ ds ↔
              l ∈ (sub.authors.filterMap User.profile).map
                Profile.get_country_display)
          sorted resp.rows.tail := by
  obtain ⟨datas, resp, hok, hfa, hrows, _, _⟩ := get_submissions_csv_ok req conf h
  refine ⟨resp, hok, orderSubmissionsByPk conf.submissions,
    orderSubmissionsByPk_perm _, ?_⟩
  rw [hrows]
  simp only [List.tail_cons]
  refine (numberRows_forall₂ 1 hfa).imp ?_
  intro sub row hx
  obtain ⟨k, d, hrow, hd⟩ := hx
  obtain ⟨ps, corr, hps, _, hdval⟩ := submissionRowData_ok_inv hd
  subst hrow
  subst hdval
  refine ⟨(ps.map Profile.get_country_display).dedup, by simp [List.getD],
    List.nodup_dedup _, ?_⟩
  intro l
  rw [List.mem_dedup, forall₂_userProfile_filterMap hps]

/-- C8 witness: submission 9's two authors both carry the label Germany;
its COUNTRY cell lists Germany once. -/
theorem claim_C8_witness :
    submissionsCsvOk confDup = true ∧
    (∃ resp, get_submissions_csv reqSample confDup = .ok resp ∧
      ∃ sorted, sorted.Perm confDup.submissions ∧
        List.Forall₂ (fun sub row =>
          ∃ ds : List String,
            row.getD 4 "" = String.intercalate ", " ds ∧
            ds.Nodup ∧
            ∀ l, l ∈ ds ↔
              l ∈ (sub.authors.filterMap User.profile).map
                Profile.get_country_display)
          sorted resp.rows.tail) :=
  ⟨by decide, claim_C8_country_dedup reqSample confDup (by decide)⟩

/-- C7: after the header, the authors export emits exactly one row per
user for whom `is_author` holds in the conference, numbered 1..N, the
rows following a pk-ascending permutation of those users, each row's
columns being, in order: sequence number, id, full name, secondary full
name, degree, country label, city, affiliation, role, email.  (All
included users having a profile row is the condition for the export to
succeed at all.) -/
theorem claim_C7_authors_csv (req : Request) (db : DB) (conf : Conference)
    (h : ∀ u ∈ db.users, is_author conf u = true → u.profile.isSome = true) :
    ∃ resp, get_authors_csv req db conf = .ok resp ∧
      resp.rows.headD [] = authorsHeader ∧
      resp.rows.length =
        (db.users.filter (fun u => is_author conf u)).length + 1 ∧
      (resp.rows.tail).map (fun r => r.headD "") =
        (List.range' 1
          (db.users.filter (fun u => is_author conf u)).length).map toString ∧
      ∃ sorted, sorted.Perm (db.users.filter (fun u => is_author conf u)) ∧
        List.Pairwise (fun a b => a.pk ≤ b.pk) sorted ∧
        List.Forall₂ (fun u row => ∃ (k : Nat) (p : Profile),
          u.profile = some p ∧
          row = [toString k, toString u.pk, p.get_full_name,
                 p.get_full_name_rus, p.degree, p.get_country_display,
                 p.city, p.affiliation, p.role, u.email])
          sorted resp.rows.tail := by
  obtain ⟨datas, resp, hok, hfa, hrows, _, _⟩ := get_authors_csv_ok req db conf h
  have hperm : ((orderUsersByPk db.users).filter
      (fun u => is_author conf u)).Perm
      (db.users.filter (fun u => is_author conf u)) :=
    (orderUsersByPk_perm db.users).filter _
  have hlen : datas.length =
      (db.users.filter (fun u => is_author conf u)).length := by
    rw [← hfa.length_eq]
    exact hperm.length_eq
  refine ⟨resp, hok, ?_, ?_, ?_,
    (orderUsersByPk db.users).filter (fun u => is_author conf u), hperm,
    List.Pairwise.sublist (List.filter_sublist _)
      (orderUsersByPk_pairwise db.users), ?_⟩
  · rw [hrows]
    rfl
  · rw [hrows]
    simp [numberRows_length, hlen]
  · rw [hrows]
    simp only [List.tail_cons, numberRows_map_head, hlen]
  · rw [hrows]
    simp only [List.tail_cons]
    refine (numberRows_forall₂ 1 hfa).imp ?_
    intro u row hx
    obtain ⟨k, d, hrow, hd⟩ := hx
    obtain ⟨p, hp, hdval⟩ := authorRowData_ok_inv hd
    subst hrow
    subst hdval
    exact ⟨k, p, hp, rfl⟩

/-- C7 witness: for conference 1 the authors are users 1 and 2 (user 6
has no authorship); the export emits the header and two ordered rows. -/
theorem claim_C7_witness :
    (∀ u ∈ db1.users, is_author conf1 u = true → u.profile.isSome = true) ∧
    (∃ resp, get_authors_csv reqSample db1 conf1 = .ok resp ∧
      resp.rows.headD [] = authorsHeader ∧
      resp.rows.length =
        (db1.users.filter (fun u => is_author conf1 u)).length + 1 ∧
      (resp.rows.tail).map (fun r => r.headD "") =
        (List.range' 1
          (db1.users.filter (fun u => is_author conf1 u)).length).map
            toString ∧
      ∃ sorted, sorted.Perm (db1.users.filter (fun u => is_author conf1 u)) ∧
        List.Pairwise (fun a b => a.pk ≤ b.pk) sorted ∧
        List.Forall₂ (fun u row => ∃ (k : Nat) (p : Profile),
          u.profile = some p ∧
          row = [toString k, toString u.pk, p.get_full_name,
                 p.get_full_name_rus, p.degree, p.get_country_display,
                 p.city, p.affiliation, p.role, u.email])
          sorted resp.rows.tail) :=
  ⟨by decide, claim_C7_authors_csv reqSample db1 conf1 (by decide)⟩

/-- C6 counterexample: user 4 has no profile row yet holds an authorship
in conference 2, so `is_author` includes the user in the export — and
`get_authors_csv` raises (the related-object error) instead of emitting
the user's row, refuting that an included user is never an error. -/
theorem claim_C6_counterexample :
    is_author confNP userNoProfile = true ∧
    userNoProfile ∈ dbNP.users ∧
    userNoProfile.profile = none ∧
    ∃ e, get_authors_csv reqSample dbNP confNP = .error e :=
  ⟨by decide, by decide, rfl,
   "RelatedObjectDoesNotExist: User has no profile.", rfl⟩

/-- C6 amended: inclusion in the authors export is governed solely by
`is_author` for the conference; when every included user has a linked
profile the export succeeds, emitting exactly the `is_author` users, but
an included user with no linked profile makes `get_authors_csv` raise
when the row's profile fields are accessed. -/
theorem claim_C6_amended_author_export (req : Request) (db : DB)
    (conf : Conference) :
    ((∀ u ∈ db.users, is_author conf u = true → u.profile.isSome = true) →
      ∃ resp, get_authors_csv req db conf = .ok resp ∧
        ∃ sorted, sorted.Perm (db.users.filter (fun u => is_author conf u)) ∧
          List.Forall₂ (fun u row => row.getD 1 "" = toString u.pk)
            sorted resp.rows.tail) ∧
    (∀ u ∈ db.users, is_author conf u = true → u.profile = none →
      ∃ e, get_authors_csv req db conf = .error e) := by
  constructor
  · intro h
    obtain ⟨datas, resp, hok, hfa, hrows, _, _⟩ := get_authors_csv_ok req db conf h
    refine ⟨resp, hok,
      (orderUsersByPk db.users).filter (fun u => is_author conf u),
      (orderUsersByPk_perm db.users).filter _, ?_⟩
    rw [hrows]
    simp only [List.tail_cons]
    refine (numberRows_forall₂ 1 hfa).imp ?_
    intro u row hx
    obtain ⟨k, d, hrow, hd⟩ := hx
    obtain ⟨p, hp, hdval⟩ := authorRowData_ok_inv hd
    subst hrow
    subst hdval
    simp [List.getD]
  · intro u hu hauth hnone
    have hmem : u ∈ (orderUsersByPk db.users).filter
        (fun u => is_author conf u) :=
      List.mem_filter.mpr ⟨(orderUsersByPk_perm db.users).mem_iff.mpr hu, hauth⟩
    have herr : authorRowData u =
        .error "RelatedObjectDoesNotExist: User has no profile." := by
      simp [authorRowData, userProfile, hnone]
    obtain ⟨e', he'⟩ := mapExcept_error_of_mem hmem herr
    exact ⟨e', by simp only [get_authors_csv, he']⟩

/-- C6 amended witness: with every author of conference 1 profiled the
export succeeds and lists exactly the `is_author` users; with the
profile-less author of conference 2 it raises. -/
theorem claim_C6_amended_witness :
    (∀ u ∈ db1.users, is_author conf1 u = true → u.profile.isSome = true) ∧
    (∃ resp, get_authors_csv reqSample db1 conf1 = .ok resp ∧
      ∃ sorted, sorted.Perm (db1.users.filter (fun u => is_author conf1 u)) ∧
        List.Forall₂ (fun u row => row.getD 1 "" = toString u.pk)
          sorted resp.rows.tail) ∧
    userNoProfile ∈ dbNP.users ∧ is_author confNP userNoProfile = true ∧
    (∃ e, get_authors_csv reqSample dbNP confNP = .error e) :=
  ⟨by decide,
   (claim_C6_amended_author_export reqSample db1 conf1).1 (by decide),
   by decide, by decide,
   (claim_C6_amended_author_export reqSample dbNP confNP).2 userNoProfile
     (by decide) (by decide) rfl⟩

/-- C9: whenever an export succeeds, its response carries content type
`text/csv` and a `Content-Disposition` attachment whose filename is the
entity name (`submissions` or `authors`), a dash, the generation-time
timestamp in the `YYYYMMDD_HHMM` shape, and the `.csv` extension. -/
theorem claim_C9_csv_response_headers (req : Request) (db : DB)
    (conf : Conference) (h1 : submissionsCsvOk conf = true)
    (h2 : ∀ u ∈ db.users, is_author conf u = true → u.profile.isSome = true) :
    (∃ resp, get_submissions_csv req conf = .ok resp ∧
      resp.contentType = "text/csv" ∧
      resp.contentDisposition =
        "attachment; filename=\"submissions-" ++ strftimeYmdHM req.now ++
          ".csv\"" ∧
      timestampShape (strftimeYmdHM req.now)) ∧
    (∃ resp, get_authors_csv req db conf = .ok resp ∧
      resp.contentType = "text/csv" ∧
      resp.contentDisposition =
        "attachment; filename=\"authors-" ++ strftimeYmdHM req.now ++
          ".csv\"" ∧
      timestampShape (strftimeYmdHM req.now)) := by
  constructor
  · obtain ⟨_, resp, hok, _, _, hct, hcd⟩ := get_submissions_csv_ok req conf h1
    exact ⟨resp, hok, hct, hcd, strftimeYmdHM_shape req.now⟩
  · obtain ⟨_, resp, hok, _, _, hct, hcd⟩ := get_authors_csv_ok req db conf h2
    exact ⟨resp, hok, hct, hcd, strftimeYmdHM_shape req.now⟩

/-- C9 witness: the sample request of 2026-10-12 09:05 yields attachments
`submissions-20261012_0905.csv` and `authors-20261012_0905.csv`. -/
theorem claim_C9_witness :
    submissionsCsvOk conf1 = true ∧
    (∀ u ∈ db1.users, is_author conf1 u = true → u.profile.isSome = true) ∧
    ((∃ resp, get_submissions_csv reqSample conf1 = .ok resp ∧
      resp.contentType = "text/csv" ∧
      resp.contentDisposition =
        "attachment; filename=\"submissions-" ++
          strftimeYmdHM reqSample.now ++ ".csv\"" ∧
      timestampShape (strftimeYmdHM reqSample.now)) ∧
    (∃ resp, get_authors_csv reqSample db1 conf1 = .ok resp ∧
      resp.contentType = "text/csv" ∧
      resp.contentDisposition =
        "attachment; filename=\"authors-" ++ strftimeYmdHM reqSample.now ++
          ".csv\"" ∧
      timestampShape (strftimeYmdHM reqSample.now))) :=
  ⟨by decide, by decide,
   claim_C9_csv_response_headers reqSample db1 conf1 (by decide) (by decide)⟩
